import Mathlib

/-!
Shallow embedding of `src/sonic_manager/core/netbox_client.py` (osism/sonic-manager).

The module under verification has two parts:
* an inventory facts resolver (`get_nb_device_query_list_sonic`,
  `get_device_loopbacks`, `get_device_oob_ip`, `get_device_vlans`), whose remote
  NetBox calls are modelled as explicit call-outcome parameters of type
  `Except Unit _` (an `.error` models a raised exception from the inventory
  system; the Python code wraps each call in `try/except`), and
* a task telemetry channel over Redis streams (`push_task_output`,
  `finish_task_output`, `fetch_task_output`), modelled as pure state passing
  over an association list of per-task logs, with `fetch_task_output`
  additionally emitting an explicit event trace (`REvent`) recording, in
  program order, each blocking read, debug log, `xdel` deletion, stdout write,
  rc assignment and error log the Python loop performs.  The wall-clock
  deadline logic of the fetch loop is modelled separately (`survives`) as a
  step function over arrival times, exactly mirroring
  `stoptime = time.time() + timeout` at entry and its reset on each receipt.

`logger.error` / `logger.debug` calls in the resolver are pure observations and
are either abstracted away (resolver: the returned log lines of
`get_nb_device_query_list_sonic`) or emitted as trace events (fetch loop).
-/

/-- JSON values as produced by Python's `json.loads` (numbers restricted to
integers; the filter claims never involve floats). -/
inductive JValue where
  | null : JValue
  | bool (b : Bool) : JValue
  | num (n : Int) : JValue
  | str (s : String) : JValue
  | arr (xs : List JValue) : JValue
  | obj (kvs : List (String × JValue)) : JValue

/-- The hard-coded fallback clause
`[{"state": "active", "tag": ["managed-by-metalbox"]}]` from
`get_nb_device_query_list_sonic` (netbox_client.py line 65). -/
def defaultFilterClause : JValue :=
  JValue.arr [JValue.obj
    [("state", JValue.str "active"),
     ("tag", JValue.arr [JValue.str "managed-by-metalbox"])]]

/-- Embedding of `NetBoxClient.get_nb_device_query_list_sonic`
(netbox_client.py lines 59-65).  `json.loads` on the configured filter string
is external stdlib code; its outcome is passed in as `parsed` (`.error msg`
models a raised `json.JSONDecodeError` with message `msg`).  The second
component of the result collects the `logger.error` lines emitted. -/
def get_nb_device_query_list_sonic (parsed : Except String JValue) :
    JValue × List String :=
  match parsed with
  | Except.ok v => (v, [])
  | Except.error e =>
      (defaultFilterClause,
       ["Error parsing NETBOX_FILTER_CONDUCTOR_SONIC: " ++ e])

/-! ## Inventory data model -/

/-- A NetBox device (only the fields the code reads: `id`, `name`). -/
structure Device where
  id : Nat
  name : String
deriving DecidableEq, Repr

/-- A NetBox interface (fields read by the code: `id`, `device` link, `name`,
`mgmt_only`, `untagged_vlan`, `tagged_vlans`; VLANs by their ids). -/
structure Interface where
  id : Nat
  deviceId : Nat
  name : String
  mgmtOnly : Bool
  untaggedVlan : Option Nat
  taggedVlans : List Nat
deriving DecidableEq, Repr

/-- A NetBox IP address object (fields read: `assigned_object_id`, `address`). -/
structure IPAddress where
  assignedObjectId : Nat
  address : String
deriving DecidableEq, Repr

/-- The inventory system's state: its interfaces and IP addresses, in the
order the server returns them. -/
structure Inventory where
  interfaces : List Interface
  ipAddresses : List IPAddress
deriving Repr

/-- Whether `pat` occurs as a contiguous run at the head of `s`. -/
def listStarts : List Char → List Char → Bool
  | [], _ => true
  | _ :: _, [] => false
  | a :: as, b :: bs => a == b && listStarts as bs

/-- Whether `pat` occurs as a contiguous run anywhere in `s`. -/
def listHasSub (pat : List Char) : List Char → Bool
  | [] => pat.isEmpty
  | c :: cs => listStarts pat (c :: cs) || listHasSub pat cs

/-- Server side of `nb.dcim.interfaces.filter(device_id=..., name__ic="loopback")`:
the device's interfaces whose name contains "loopback" case-insensitively,
in inventory order. -/
def nbIfacesLoopback (inv : Inventory) (devId : Nat) : List Interface :=
  inv.interfaces.filter
    (fun i => i.deviceId == devId && listHasSub "loopback".toList i.name.toLower.toList)

/-- Server side of `nb.dcim.interfaces.filter(device_id=..., mgmt_only=True)`:
the device's management-only interfaces, in inventory order. -/
def nbIfacesMgmt (inv : Inventory) (devId : Nat) : List Interface :=
  inv.interfaces.filter (fun i => i.deviceId == devId && i.mgmtOnly)

/-- Server side of `nb.dcim.interfaces.filter(device_id=...)`: all of the
device's interfaces, in inventory order. -/
def nbIfacesAll (inv : Inventory) (devId : Nat) : List Interface :=
  inv.interfaces.filter (fun i => i.deviceId == devId)

/-- Server side of `nb.ipam.ip_addresses.filter(assigned_object_id=...)`. -/
def nbIPsFor (inv : Inventory) (objId : Nat) : List IPAddress :=
  inv.ipAddresses.filter (fun ip => ip.assignedObjectId == objId)

/-- Embedding of `NetBoxClient.get_device_loopbacks` (netbox_client.py lines
67-78).  `nb` is whether `self.nb` is non-null; `ifCall` is the outcome of the
remote `interfaces.filter` call (`.error` = exception, caught and logged, the
`except` branch returns `[]`). -/
def get_device_loopbacks (nb : Bool) (dev : Device)
    (ifCall : Except Unit (List Interface)) : List Interface :=
  if nb then
    match ifCall with
    | Except.ok l => l
    | Except.error _ => []
  else []

/-- Python `str(ip.address).split("/")[0]`: everything before the first `/`
(the whole string when it has no `/`). -/
def addrBeforeSlash (s : String) : String :=
  String.mk (s.toList.takeWhile (fun c => c != '/'))

/-- The scanning loop of `get_device_oob_ip` (netbox_client.py lines 90-96):
iterate the management-only interfaces in order; for each, issue the
`ip_addresses.filter` call (`ipCall`); on the first address found, return it
with the prefix length stripped.  An `.error` from `ipCall` models an
exception raised mid-scan, which propagates out of the loop (to be caught by
the wrapper). -/
def oobScan (ipCall : Nat → Except Unit (List IPAddress)) :
    List Interface → Except Unit (Option String)
  | [] => Except.ok none
  | i :: rest =>
    match ipCall i.id with
    | Except.error e => Except.error e
    | Except.ok [] => oobScan ipCall rest
    | Except.ok (ip :: _) => Except.ok (some (addrBeforeSlash ip.address))

/-- Embedding of `NetBoxClient.get_device_oob_ip` (netbox_client.py lines
80-99).  `ifCall` is the outcome of the `interfaces.filter(mgmt_only=True)`
call; any exception (from either remote call) is caught by the `try/except`
and the function falls through to `return None`. -/
def get_device_oob_ip (nb : Bool) (dev : Device)
    (ifCall : Except Unit (List Interface))
    (ipCall : Nat → Except Unit (List IPAddress)) : Option String :=
  if nb then
    match ifCall with
    | Except.error _ => none
    | Except.ok ifaces =>
      match oobScan ipCall ifaces with
      | Except.error _ => none
      | Except.ok r => r
  else none

/-- `get_device_oob_ip` run against an honest inventory server (every remote
call succeeds and is answered from `inv`). -/
def oobIPHonest (nb : Bool) (inv : Inventory) (dev : Device) : Option String :=
  get_device_oob_ip nb dev (Except.ok (nbIfacesMgmt inv dev.id))
    (fun objId => Except.ok (nbIPsFor inv objId))

/-- The VLANs one interface contributes, in the order the loop body of
`get_device_vlans` appends them: the untagged VLAN (if truthy), then all
tagged VLANs. -/
def ifaceVlans (i : Interface) : List Nat :=
  (match i.untaggedVlan with
   | some v => [v]
   | none => []) ++ i.taggedVlans

/-- The `vlans` accumulator of `get_device_vlans` after iterating the
interfaces in order (netbox_client.py lines 110-115). -/
def collectVlans : List Interface → List Nat
  | [] => []
  | i :: rest => ifaceVlans i ++ collectVlans rest

/-- Embedding of `NetBoxClient.get_device_vlans` (netbox_client.py lines
101-120).  The Python `list(set(vlans))` deduplicates with unspecified order;
we model it with `List.dedup` (the claims only constrain the underlying set
and duplicate-freeness, never the order). -/
def get_device_vlans (nb : Bool) (dev : Device)
    (ifCall : Except Unit (List Interface)) : List Nat :=
  if nb then
    match ifCall with
    | Except.error _ => []
    | Except.ok ifaces => (collectVlans ifaces).dedup
  else []

/-- `get_device_vlans` run against an honest inventory server. -/
def vlansHonest (nb : Bool) (inv : Inventory) (dev : Device) : List Nat :=
  get_device_vlans nb dev (Except.ok (nbIfacesAll inv dev.id))

/-! ## Task telemetry channel (Redis streams) -/

/-- One entry of a task's Redis stream: the auto-assigned monotonically
increasing entry id, and the two wire fields `type` and `content`. -/
structure StreamEntry where
  eid : Nat
  etype : String
  content : String
deriving DecidableEq, Repr

/-- One task's stream: the next entry id to assign and the entries in
producer (= entry-id) order. -/
structure TaskLog where
  nextId : Nat
  entries : List StreamEntry
deriving DecidableEq, Repr

/-- Redis `XADD`: append an entry with the next id. -/
def xadd (log : TaskLog) (t c : String) : TaskLog :=
  ⟨log.nextId + 1, log.entries ++ [⟨log.nextId, t, c⟩]⟩

/-- The Redis server state: one stream per task id. -/
def RedisStore := List (String × TaskLog)

/-- The stream stored under a task id (a missing key reads as an empty
stream, as Redis `XREAD` on an absent stream yields no entries). -/
def getLog (st : RedisStore) (tid : String) : TaskLog :=
  match List.lookup tid st with
  | some l => l
  | none => ⟨0, []⟩

/-- Store a task's stream under its id. -/
def setLog : RedisStore → String → TaskLog → RedisStore
  | [], tid, l => [(tid, l)]
  | (k, v) :: rest, tid, l =>
    if k == tid then (k, l) :: rest else (k, v) :: setLog rest tid l

/-- Embedding of `NetBoxClient.push_task_output` (netbox_client.py lines
122-128): when the Redis connection is up, `XADD` a `stdout` entry; otherwise
do nothing.  (The `try/except` around a failing `XADD` only logs; the claims
never exercise an `XADD` failure.) -/
def push_task_output (connected : Bool) (st : RedisStore)
    (taskId line : String) : RedisStore :=
  if connected then setLog st taskId (xadd (getLog st taskId) "stdout" line)
  else st

/-- Embedding of `NetBoxClient.finish_task_output` (netbox_client.py lines
130-137): when connected, `XADD` an `rc` entry carrying `str(rc)`, then an
`action`/`quit` entry. -/
def finish_task_output (connected : Bool) (st : RedisStore)
    (taskId : String) (rc : Int) : RedisStore :=
  if connected then
    setLog st taskId (xadd (xadd (getLog st taskId) "rc" (toString rc)) "action" "quit")
  else st

/-- Python whitespace for `int(...)`'s implicit strip. -/
def isSpaceCh (c : Char) : Bool :=
  c == ' ' || c == '\t' || c == '\n' || c == '\r' || c == '\x0b' || c == '\x0c'

/-- Value of a non-empty all-digit run, else `none`. -/
def digitsVal (cs : List Char) : Option Nat :=
  if cs.isEmpty then none
  else if cs.all Char.isDigit then
    some (cs.foldl (fun a c => a * 10 + (c.toNat - 48)) 0)
  else none

/-- Model of Python `int(s)` on a decoded string: strip surrounding
whitespace, optional sign, base-10 digits; anything else raises `ValueError`
(modelled as `none`).  (Digit-group underscores are not modelled; no claim
involves them.) -/
def pyIntParse (s : String) : Option Int :=
  let cs := ((s.toList.dropWhile isSpaceCh).reverse.dropWhile isSpaceCh).reverse
  match cs with
  | '+' :: rest => (digitsVal rest).map Int.ofNat
  | '-' :: rest => (digitsVal rest).map (fun n => -(n : Int))
  | _ => (digitsVal cs).map Int.ofNat

/-- Observable events of the fetch loop, in program order: each blocking
`XREAD` (with whether it returned data), each `logger.debug`, each `XDEL`,
each `print(content, end="")` to the output sink, each assignment to `rc`,
the PLAY RECAP notices, and the `logger.error` of the `except` handler. -/
inductive REvent where
  | xread (gotData : Bool) : REvent
  | logDebug (id : Nat) : REvent
  | xdel (id : Nat) : REvent
  | stdout (s : String) : REvent
  | setRc (n : Int) : REvent
  | logInfoRecap : REvent
  | logError : REvent
deriving DecidableEq, Repr

/-- Continuation status after processing one entry: keep looping with an
updated pending rc, return from `fetch_task_output` with a final rc (the
`quit` path), or break out of the loop via the `except` handler. -/
inductive StepResult where
  | cont (rc : Int) : StepResult
  | retRc (rc : Int) : StepResult
  | errBreak : StepResult
deriving DecidableEq, Repr

/-- The dispatch on `message_type` in `fetch_task_output` (netbox_client.py
lines 166-178), after the entry has already been deleted: the events it emits
and the resulting continuation.  A non-integer `rc` payload makes `int(...)`
raise `ValueError`, which the `except` handler turns into a `logger.error`
and a `break`. -/
def dispatchOf (recap : Bool) (rc : Int) (e : StreamEntry) :
    List REvent × StepResult :=
  if e.etype = "stdout" then
    (REvent.stdout e.content ::
      (if recap && listHasSub "PLAY RECAP".toList e.content.toList then
        [REvent.logInfoRecap]
      else []),
     StepResult.cont rc)
  else if e.etype = "rc" then
    match pyIntParse e.content with
    | some n => ([REvent.setRc n], StepResult.cont n)
    | none => ([REvent.logError], StepResult.errBreak)
  else if e.etype = "action" ∧ e.content = "quit" then
    ([], StepResult.retRc rc)
  else ([], StepResult.cont rc)

/-- Processing of one received entry (netbox_client.py lines 160-178): record
the cursor/decode (no event), `logger.debug`, `XDEL` the entry, then dispatch
on its type.  Deletion precedes the dispatch in the source. -/
def processEntry (recap : Bool) (rc : Int) (e : StreamEntry) :
    List REvent × StepResult :=
  let d := dispatchOf recap rc e
  (REvent.logDebug e.eid :: REvent.xdel e.eid :: d.1, d.2)

/-- The fetch loop (netbox_client.py lines 146-183) over the sequence of
entries the stream will deliver, abstracted from wall-clock time (the
deadline logic is modelled by `survives` below): each iteration issues one
blocking `XREAD` with `count=1`; an empty remainder means the final read
blocks out and the `while` condition fails, returning the pending rc. -/
def fetchGo (recap : Bool) : Int → List StreamEntry → List REvent × Int
  | rc, [] => ([REvent.xread false], rc)
  | rc, e :: rest =>
    let p := processEntry recap rc e
    match p.2 with
    | StepResult.cont rc2 =>
      let k := fetchGo recap rc2 rest
      (REvent.xread true :: p.1 ++ k.1, k.2)
    | StepResult.retRc r => (REvent.xread true :: p.1, r)
    | StepResult.errBreak => (REvent.xread true :: p.1, rc)

/-- Embedding of `NetBoxClient.fetch_task_output` (netbox_client.py lines
139-183).  `timeout` is only consumed by the wall-clock deadline logic
(modelled by `survives`); on an absent Redis connection the function returns
`0` immediately with an empty event trace (no read is issued). -/
def fetch_task_output (connected : Bool) (st : RedisStore) (taskId : String)
    (timeout : Nat) (recap : Bool) : List REvent × Int :=
  if connected then fetchGo recap 0 (getLog st taskId).entries
  else ([], 0)

/-- The transcript written to the output sink: the concatenation, in order,
of the `stdout` events of a trace. -/
def transcript (evs : List REvent) : String :=
  evs.foldr
    (fun e acc =>
      match e with
      | REvent.stdout s => s ++ acc
      | _ => acc) ""

/-- The entry ids deleted by a trace, in deletion order. -/
def deletedIds (evs : List REvent) : List Nat :=
  evs.filterMap
    (fun e =>
      match e with
      | REvent.xdel i => some i
      | _ => none)

/-- `a` is an initial segment of `b`. -/
def isInitSeg (a b : List Nat) : Prop :=
  ∃ t, a ++ t = b

/-! ## Wall-clock deadline model of the fetch loop -/

/-- The deadline set by `stoptime = time.time() + timeout`. -/
def idleDeadline (timeout t : Nat) : Nat := t + timeout

/-- Deadline evolution of the fetch loop over the arrival times of received
entries (netbox_client.py lines 147-156): an arrival at time `t` is received
iff `t` is before the current `stoptime`, and on receipt the deadline is
reset to `t + timeout`.  Returns `true` iff every arrival in the sequence is
received, i.e. the loop never exits by timeout between arrivals. -/
def survives (timeout : Nat) : Nat → List Nat → Bool
  | _, [] => true
  | deadline, t :: ts => t < deadline && survives timeout (idleDeadline timeout t) ts

/-- Hypothesis of the idle-timeout claim: each arrival happens strictly
before the then-current deadline, i.e. strictly less than `timeout` after the
previous arrival (or after the loop start, for the first). -/
def gapsOk (timeout : Nat) : Nat → List Nat → Prop
  | _, [] => True
  | t0, t :: ts => t < t0 + timeout ∧ gapsOk timeout t ts

/-- Spec-side characterization for the VLAN claim: the union, over the
device's interfaces, of each interface's untagged VLAN (if any) plus all its
tagged VLANs, as a finite set. -/
def specVlanUnion (l : List Interface) : Finset Nat :=
  l.foldr (fun i s => (ifaceVlans i).toFinset ∪ s) ∅

/-- The ordering asserted by the consumption claim: in the trace `evs`, the
dispatch event `d` of an entry occurs strictly before that entry's deletion
event `xdel id`. -/
def dispatchedBeforeDeleted (evs : List REvent) (id : Nat) (d : REvent) : Prop :=
  evs.indexOf d < evs.indexOf (REvent.xdel id)

/-- Dispatch events carry no deletion and no debug log: the only `xdel` (and
the only `logger.debug`) for an entry happens in `processEntry` itself,
before the dispatch. -/
def noDelNoDebug (ev : REvent) : Bool :=
  match ev with
  | REvent.xdel _ => false
  | REvent.logDebug _ => false
  | _ => true

/-! ## Helper lemmas -/

theorem getLog_setLog_self (st : RedisStore) (tid : String) (l : TaskLog) :
    getLog (setLog st tid l) tid = l := by
  induction st with
  | nil => simp [setLog, getLog, List.lookup]
  | cons kv rest ih =>
    obtain ⟨k, v⟩ := kv
    by_cases hk : (k == tid) = true
    · have hk2 : k = tid := eq_of_beq hk
      subst hk2
      simp [setLog, getLog, List.lookup]
    · have hk2 : k ≠ tid := fun h => hk (by simp [h])
      have hk3 : (tid == k) = false := beq_eq_false_iff_ne.mpr (Ne.symm hk2)
      simp only [setLog, if_neg hk]
      simpa [getLog, List.lookup, hk3] using ih

theorem getLog_roundtrip (tid : String) :
    getLog (finish_task_output true
      (push_task_output true (push_task_output true [] tid "a") tid "b") tid 2) tid
    = ⟨4, [⟨0, "stdout", "a"⟩, ⟨1, "stdout", "b"⟩,
           ⟨2, "rc", "2"⟩, ⟨3, "action", "quit"⟩]⟩ := by
  simp only [push_task_output, finish_task_output, if_true, getLog_setLog_self]
  have h0 : getLog ([] : RedisStore) tid = ⟨0, []⟩ := rfl
  rw [h0]
  rfl

theorem oobScan_all_empty (ipCall : Nat → Except Unit (List IPAddress))
    (l : List Interface) (h : ∀ j ∈ l, ipCall j.id = Except.ok []) :
    oobScan ipCall l = Except.ok none := by
  induction l with
  | nil => rfl
  | cons i rest ih =>
    have hi := h i (List.mem_cons_self i rest)
    simp only [oobScan, hi]
    exact ih fun j hj => h j (List.mem_cons_of_mem i hj)

theorem oobScan_hit (ipCall : Nat → Except Unit (List IPAddress))
    (pre : List Interface) (i : Interface) (post : List Interface)
    (ip : IPAddress) (tl : List IPAddress)
    (hpre : ∀ j ∈ pre, ipCall j.id = Except.ok [])
    (hi : ipCall i.id = Except.ok (ip :: tl)) :
    oobScan ipCall (pre ++ i :: post)
      = Except.ok (some (addrBeforeSlash ip.address)) := by
  induction pre with
  | nil => simp [oobScan, hi]
  | cons j rest ih =>
    have hj := hpre j (List.mem_cons_self j rest)
    simp only [List.cons_append, oobScan, hj]
    exact ih fun j2 hj2 => hpre j2 (List.mem_cons_of_mem j hj2)

theorem collectVlans_toFinset (l : List Interface) :
    (collectVlans l).toFinset = specVlanUnion l := by
  induction l with
  | nil => rfl
  | cons i rest ih => simp [collectVlans, specVlanUnion, List.toFinset_append, ih]

theorem dispatch_no_del_debug (recap : Bool) (rc : Int) (e : StreamEntry) :
    ((dispatchOf recap rc e).1).all noDelNoDebug = true := by
  unfold dispatchOf
  split
  · split <;> rfl
  · split
    · split
      · rfl
      · rfl
    · split
      · rfl
      · rfl

theorem deletedIds_dispatch (recap : Bool) (rc : Int) (e : StreamEntry) :
    deletedIds (dispatchOf recap rc e).1 = [] := by
  unfold dispatchOf
  split
  · split <;> rfl
  · split
    · split
      · rfl
      · rfl
    · split
      · rfl
      · rfl

theorem deletedIds_append (a b : List REvent) :
    deletedIds (a ++ b) = deletedIds a ++ deletedIds b := by
  simp [deletedIds, List.filterMap_append]

theorem deletedIds_processEntry (recap : Bool) (rc : Int) (e : StreamEntry) :
    deletedIds (processEntry recap rc e).1 = [e.eid] := by
  simp [processEntry, deletedIds, deletedIds_dispatch recap rc e]
  have h := deletedIds_dispatch recap rc e
  simpa [deletedIds] using h

theorem fetch_deletes_in_order (recap : Bool) (rc : Int)
    (es : List StreamEntry) :
    isInitSeg (deletedIds (fetchGo recap rc es).1) (es.map StreamEntry.eid) := by
  induction es generalizing rc with
  | nil => exact ⟨[], rfl⟩
  | cons e rest ih =>
    simp only [fetchGo]
    rcases h2 : (processEntry recap rc e).2 with rc2 | r
    · simp only [h2]
      obtain ⟨t, ht⟩ := ih rc2
      refine ⟨t, ?_⟩
      simp only [deletedIds, List.filterMap_cons]
      have hp := deletedIds_processEntry recap rc e
      simp only [deletedIds] at hp ht
      simp [List.filterMap_append, hp, ht, List.map_cons]
    · simp only [h2]
      refine ⟨rest.map StreamEntry.eid, ?_⟩
      have hp := deletedIds_processEntry recap rc e
      simp only [deletedIds] at hp
      simp [deletedIds, hp]
    · simp only [h2]
      refine ⟨rest.map StreamEntry.eid, ?_⟩
      have hp := deletedIds_processEntry recap rc e
      simp only [deletedIds] at hp
      simp [deletedIds, hp]

/-! ## Claim theorems -/

/-- C1: pushing `stdout:"a"`, `stdout:"b"` and `finish(rc=2)` onto a task's
log and then fetching it writes the transcript `"ab"` to the output sink
(each stdout content verbatim, with no added newline) and returns the return
code `2`, for every task id. -/
theorem C1_push_finish_fetch_roundtrip (tid : String) :
    transcript (fetch_task_output true
      (finish_task_output true
        (push_task_output true (push_task_output true [] tid "a") tid "b")
        tid 2) tid 300 false).1 = "ab"
    ∧ (fetch_task_output true
      (finish_task_output true
        (push_task_output true (push_task_output true [] tid "a") tid "b")
        tid 2) tid 300 false).2 = 2 := by
  have h := getLog_roundtrip tid
  constructor
  · simp only [fetch_task_output, if_true, h]
    decide
  · simp only [fetch_task_output, if_true, h]
    decide

/-- C2: the fetch loop's deadline is reset to `now + timeout` on each
receipt, so it is an idle timeout: whenever every arrival happens strictly
before the then-current deadline (`gapsOk`), the loop receives every entry
and never exits by timeout between arrivals (`survives`), with no bound on
the total elapsed wall-clock time. -/
theorem C2_idle_timeout_extension (timeout t0 : Nat) (ts : List Nat)
    (h : gapsOk timeout t0 ts) :
    survives timeout (idleDeadline timeout t0) ts = true := by
  induction ts generalizing t0 with
  | nil => rfl
  | cons t ts ih =>
    have h1 := h.1
    have h2 := h.2
    simp only [survives, Bool.and_eq_true, decide_eq_true_eq]
    exact ⟨h1, ih t h2⟩

/-- Witness for C2: five arrivals each 9 time units apart survive a timeout
of 10, even though the last arrival is at time 45, far beyond the initial
deadline 0 + 10 (total elapsed time exceeds the timeout more than fourfold). -/
theorem C2_idle_timeout_extension_witness :
    survives 10 (idleDeadline 10 0) [9, 18, 27, 36, 45] = true ∧ 0 + 10 < 45 :=
  ⟨C2_idle_timeout_extension 10 0 [9, 18, 27, 36, 45] (by norm_num [gapsOk]),
   by norm_num⟩

/-- C8: when the operator-supplied device filter expression fails to parse as
JSON, `get_nb_device_query_list_sonic` raises nothing and falls back to the
hard-coded default clause (state `"active"` plus the fixed
`managed-by-metalbox` tag), logging exactly one parse-error line. -/
theorem C8_malformed_filter_falls_back (e : String) :
    (get_nb_device_query_list_sonic (Except.error e)).1 = defaultFilterClause
    ∧ (get_nb_device_query_list_sonic (Except.error e)).2.length = 1 :=
  ⟨rfl, rfl⟩

/-- C10: the fallback is triggered only by JSON decode errors: any value that
`json.loads` successfully produces — scalar, object, or list of non-mappings
alike — is returned verbatim as the eligibility filter, with no shape
validation, no fallback and no logged error. -/
theorem C10_valid_json_passed_through (v : JValue) :
    get_nb_device_query_list_sonic (Except.ok v) = (v, []) := rfl

/-- C9: with the Redis connection absent, `push_task_output` and
`finish_task_output` leave the store untouched and raise nothing, and
`fetch_task_output` returns `0` immediately with an empty event trace — in
particular it issues no blocking read — for every task id and every timeout. -/
theorem C9_absent_connection_noops (st : RedisStore) (tid line : String)
    (rc : Int) (timeout : Nat) (recap : Bool) :
    push_task_output false st tid line = st
    ∧ finish_task_output false st tid rc = st
    ∧ fetch_task_output false st tid timeout recap = ([], 0) :=
  ⟨rfl, rfl, rfl⟩

/-- C7: any exception raised by the inventory system during a remote call
never propagates out of a resolver operation: `get_device_loopbacks` degrades
to `[]`, `get_device_oob_ip` degrades to `none` (whether the interface query
or a mid-scan address query raises), and `get_device_vlans` degrades to `[]`. -/
theorem C7_remote_exception_degrades :
    (∀ dev : Device, get_device_loopbacks true dev (Except.error ()) = [])
    ∧ (∀ (dev : Device) (ipCall : Nat → Except Unit (List IPAddress)),
        get_device_oob_ip true dev (Except.error ()) ipCall = none)
    ∧ (∀ (dev : Device) (ifaces : List Interface)
        (ipCall : Nat → Except Unit (List IPAddress)),
        oobScan ipCall ifaces = Except.error () →
        get_device_oob_ip true dev (Except.ok ifaces) ipCall = none)
    ∧ (∀ dev : Device, get_device_vlans true dev (Except.error ()) = []) := by
  refine ⟨fun _ => rfl, fun _ _ => rfl, fun dev ifaces ipCall h => ?_, fun _ => rfl⟩
  simp [get_device_oob_ip, h]

/-- Witness for C7: a mid-scan exception on the address query of a concrete
management interface degrades the OOB lookup to `none`. -/
theorem C7_remote_exception_degrades_witness :
    get_device_oob_ip true ⟨1, "d"⟩
      (Except.ok [⟨2, 1, "eth0", true, none, []⟩])
      (fun _ => Except.error ()) = none :=
  C7_remote_exception_degrades.2.2.1 ⟨1, "d"⟩ [⟨2, 1, "eth0", true, none, []⟩]
    (fun _ => Except.error ()) rfl

/-- C5: `get_device_oob_ip` scans the management-only interfaces in
inventory-returned order; for the first interface having at least one
assigned address it returns that address with the `/NN` suffix removed;
it returns `none` when the connection is absent or no scanned interface has
an address; and interfaces after the first match play no role (the `post`
segment is universally quantified and unconstrained). -/
theorem C5_oob_ip_first_match :
    (∀ (inv : Inventory) (dev : Device), oobIPHonest false inv dev = none)
    ∧ (∀ (inv : Inventory) (dev : Device),
        (∀ i ∈ nbIfacesMgmt inv dev.id, nbIPsFor inv i.id = []) →
        oobIPHonest true inv dev = none)
    ∧ (∀ (inv : Inventory) (dev : Device) (pre : List Interface)
        (i : Interface) (post : List Interface) (ip : IPAddress)
        (tl : List IPAddress),
        nbIfacesMgmt inv dev.id = pre ++ i :: post →
        (∀ j ∈ pre, nbIPsFor inv j.id = []) →
        nbIPsFor inv i.id = ip :: tl →
        oobIPHonest true inv dev = some (addrBeforeSlash ip.address)) := by
  refine ⟨fun _ _ => rfl, ?_, ?_⟩
  · intro inv dev h
    have hs := oobScan_all_empty (fun objId => Except.ok (nbIPsFor inv objId))
      (nbIfacesMgmt inv dev.id) (fun j hj => congrArg Except.ok (h j hj))
    simp [oobIPHonest, get_device_oob_ip, hs]
  · intro inv dev pre i post ip tl hsplit hpre hi
    have hs := oobScan_hit (fun objId => Except.ok (nbIPsFor inv objId))
      pre i post ip tl (fun j hj => congrArg Except.ok (hpre j hj))
      (congrArg Except.ok hi)
    simp [oobIPHonest, get_device_oob_ip, hsplit, hs]

/-- Witness for C5: on an inventory with one management-only interface whose
assigned address is `"10.0.0.5/24"`, the OOB lookup returns `"10.0.0.5"`. -/
theorem C5_oob_ip_first_match_witness :
    oobIPHonest true ⟨[⟨5, 1, "mgmt0", true, none, []⟩], [⟨5, "10.0.0.5/24"⟩]⟩
      ⟨1, "sw1"⟩ = some "10.0.0.5" := by
  have h := C5_oob_ip_first_match.2.2
    ⟨[⟨5, 1, "mgmt0", true, none, []⟩], [⟨5, "10.0.0.5/24"⟩]⟩ ⟨1, "sw1"⟩
    [] ⟨5, 1, "mgmt0", true, none, []⟩ [] ⟨5, "10.0.0.5/24"⟩ []
    rfl (by simp) rfl
  have ha : addrBeforeSlash "10.0.0.5/24" = "10.0.0.5" := by decide
  rw [ha] at h
  exact h

/-- C6: `get_device_vlans` returns, deduplicated, exactly the union over the
device's interfaces of each interface's untagged VLAN (if any) plus its
tagged VLANs; it returns `[]` on an absent connection or a failed remote
call; and on the claim's example (untagged 10 plus tagged {20, 30} with 20
repeated across two interfaces) it has exactly the 3 elements {10, 20, 30}. -/
theorem C6_vlans_dedup_union :
    (∀ (dev : Device) (ifCall : Except Unit (List Interface)),
        get_device_vlans false dev ifCall = [])
    ∧ (∀ dev : Device, get_device_vlans true dev (Except.error ()) = [])
    ∧ (∀ (dev : Device) (l : List Interface),
        (get_device_vlans true dev (Except.ok l)).toFinset = specVlanUnion l)
    ∧ (∀ (dev : Device) (l : List Interface),
        (get_device_vlans true dev (Except.ok l)).Nodup)
    ∧ (get_device_vlans true ⟨1, "d"⟩ (Except.ok
        [⟨1, 1, "e1", false, some 10, [20]⟩,
         ⟨2, 1, "e2", false, none, [20, 30]⟩])).length = 3
    ∧ (get_device_vlans true ⟨1, "d"⟩ (Except.ok
        [⟨1, 1, "e1", false, some 10, [20]⟩,
         ⟨2, 1, "e2", false, none, [20, 30]⟩])).toFinset = {10, 20, 30} := by
  refine ⟨fun _ _ => rfl, fun _ => rfl, ?_, ?_, ?_, ?_⟩
  · intro dev l
    simp only [get_device_vlans, if_true]
    rw [← collectVlans_toFinset]
    ext a
    simp [List.mem_toFinset, List.mem_dedup]
  · intro dev l
    simp only [get_device_vlans, if_true]
    exact List.nodup_dedup _
  · decide
  · decide

/-- C3 counterexample: in the fetch trace of a single `stdout:"a"` entry, the
`xdel` deletion event precedes the stdout dispatch event, so the claimed
dispatch-before-deletion ordering is false (the code deletes each entry
before dispatching on it, netbox_client.py line 164 vs 166). -/
theorem C3_dispatch_before_delete_counterexample :
    ¬ dispatchedBeforeDeleted (fetchGo false 0 [⟨1, "stdout", "a"⟩]).1 1
        (REvent.stdout "a") := by
  simp only [dispatchedBeforeDeleted]
  decide

/-- C3 amended: the consumer processes entries in entry-id order — the
sequence of deleted entry ids of any fetch trace is an initial segment of the
entry ids in log order — and each entry is deleted exactly once, immediately
after it is decoded and logged and immediately BEFORE the dispatch on its
type (the dispatch emits no deletion and no further debug log). -/
theorem C3_in_order_delete_then_dispatch :
    (∀ (recap : Bool) (rc : Int) (es : List StreamEntry),
        isInitSeg (deletedIds (fetchGo recap rc es).1) (es.map StreamEntry.eid))
    ∧ (∀ (recap : Bool) (rc : Int) (e : StreamEntry),
        (processEntry recap rc e).1.take 2
          = [REvent.logDebug e.eid, REvent.xdel e.eid]
        ∧ ((processEntry recap rc e).1.drop 2).all noDelNoDebug = true) :=
  ⟨fetch_deletes_in_order,
   fun recap rc e => ⟨rfl, dispatch_no_del_debug recap rc e⟩⟩

/-- C4 counterexample: on the log `rc:"5"`, `rc:"xx"`, `action:"quit"`, fetch
returns `5` — not the claimed safe default `0` — and never processes the
later `quit` entry (no `xdel 3` occurs in the trace): the `ValueError` from
`int("xx")` is caught by the generic handler, which breaks the loop instead
of continuing it. -/
theorem C4_rc_parse_error_counterexample :
    (fetchGo false 0 [⟨1, "rc", "5"⟩, ⟨2, "rc", "xx"⟩, ⟨3, "action", "quit"⟩]).2 = 5
    ∧ REvent.xdel 3 ∉
      (fetchGo false 0 [⟨1, "rc", "5"⟩, ⟨2, "rc", "xx"⟩, ⟨3, "action", "quit"⟩]).1 := by
  decide

/-- C4 amended: when fetch consumes an `rc` entry whose content does not
parse as an integer, the entry has already been deleted, the error is logged,
and the fetch loop breaks, returning the most recently stored return code
(the initial `0` if none was stored) — subsequent entries, including a later
`quit`, are not processed. -/
theorem C4_rc_parse_error_breaks (recap : Bool) (rc0 : Int) (eid : Nat)
    (s : String) (rest : List StreamEntry) (h : pyIntParse s = none) :
    fetchGo recap rc0 (⟨eid, "rc", s⟩ :: rest)
      = ([REvent.xread true, REvent.logDebug eid, REvent.xdel eid,
          REvent.logError], rc0) := by
  simp [fetchGo, processEntry, dispatchOf, h]

/-- Witness for C4 amended: the non-integer payload `"xx"` with one pending
`quit` entry makes fetch return the initial `0` after logging the error, the
`quit` entry untouched. -/
theorem C4_rc_parse_error_breaks_witness :
    fetchGo false 0 [⟨2, "rc", "xx"⟩, ⟨3, "action", "quit"⟩]
      = ([REvent.xread true, REvent.logDebug 2, REvent.xdel 2,
          REvent.logError], 0) :=
  C4_rc_parse_error_breaks false 0 2 "xx" [⟨3, "action", "quit"⟩] (by decide)
